import Mathlib

/-!
Verification of the sales-dashboard email reconciliation pipeline
(`src/emailProcessor.js`, `src/utils/dataChecker.js`).

The JavaScript source is shallowly embedded: records become structures over
the canonical fields the pipeline reads; JS `Date` instants become `Int`
epoch-milliseconds; fallible stages (`throw`) become `Except String`.
Date parsing (`parseDateFlexible`) and the open-CSV date reformatting rely
on the JS `Date` constructor, which is external to the algorithm; they are
abstracted as function parameters `parse : String → Option Int` and
`reformat : String → String` threaded through the pipeline exactly where
the source calls them.  All definitions are executable.
-/

namespace SalesDashboard

/-! ## Character-level string helpers

Executable stand-ins for the JS string primitives used by the processor
(`toLowerCase`, `trim`, `includes`, `split(",")[0]`).  They are written
over `List Char` so that every proof can evaluate them by `decide`/`rfl`.
-/

/-- ASCII lowercasing of a string, modelling JS `toLowerCase()` on the
ASCII data that flows through this pipeline. -/
def lowerStr (s : String) : String :=
  String.mk (s.data.map Char.toLower)

/-- Drop leading whitespace characters. -/
def dropWS : List Char → List Char
  | [] => []
  | c :: cs => if c.isWhitespace then dropWS cs else c :: cs

/-- Whitespace trim on both ends, modelling JS `trim()`. -/
def trimStr (s : String) : String :=
  String.mk ((dropWS ((dropWS s.data.reverse).reverse)))

/-- `p.isPrefixOf`-based substring test, modelling JS `includes`. -/
def hasSubList (p : List Char) : List Char → Bool
  | [] => p.isEmpty
  | c :: t => p.isPrefixOf (c :: t) || hasSubList p t

/-- `strIncludes s pat` models JS `s.includes(pat)`. -/
def strIncludes (s pat : String) : Bool :=
  hasSubList pat.data s.data

/-- JS normalization `(x || "").toLowerCase().trim()` used for every join
key in the processor (recipient names, emails, company URLs). -/
def normKey (s : String) : String :=
  trimStr (lowerStr s)

/-- JS `a || b` for an optional string `a`: falsy (`null`/`undefined`/`""`)
falls through to `b`. -/
def jsOrStr (a : Option String) (b : String) : String :=
  match a with
  | none => b
  | some s => if s = "" then b else s

/-! ## Data model

Canonical record shapes after header normalization.  Alias mapping
(`Recipient Name` → `recipient_name`, `Date` → `sent_date`, …) is a
renaming of CSV headers onto these canonical fields and is absorbed by the
typed representation; extra passthrough columns are not observed by any
verified property and are omitted. -/

/-- A send row on its canonical fields.  `sent_date_parsed` mirrors the
`r.sent_date_parsed = parseDateFlexible(r.sent_date)` assignment:
`none` models an absent/`null` parse (JS `Date` objects are always
truthy, so the pipeline only distinguishes present vs null). -/
structure SendRecord where
  recipient_name : String
  sent_date : String
  recipientEmail : String
  domain : String := ""
  sent_date_parsed : Option Int := none
deriving DecidableEq, Repr

/-- A raw open row before `normalizeOpen`.  `Views = none` models a
missing/empty/non-numeric cell (the `Number(x) || 0` coercion is applied
by `normalizeOpen`). -/
structure OpenRaw where
  recipient_name : String
  sent_date : String
  Views : Option Int := none
  Clicks : Option Int := none
  last_opened : Option String := none
deriving DecidableEq, Repr

/-- An open row after `normalizeOpen`. -/
structure OpenRecord where
  recipient_name : String
  sent_date : String
  Views : Int
  Clicks : Int
  last_opened : Option String := none
  sent_date_parsed : Option Int := none
deriving DecidableEq, Repr

/-- A contact row on its canonical fields (`Email`, `Company URL`).
`companyURL = none` models an absent `Company URL` column. -/
structure ContactRecord where
  Email : String
  companyURL : Option String := none
deriving DecidableEq, Repr

/-- A send row after the send-open join: the JS object `{...send, ...}`.
Optional fields model JS keys that may be absent (`none`) — `Views`,
`Clicks`, `last_opened` are set on a match or nulled by the left join;
`failure_reason`/`match_count` are transient classification markers;
`sdrName` is the `SDR_Name` tag added by the multi-SDR pipeline. -/
structure JoinedRecord where
  send : SendRecord
  Views : Option Int := none
  Clicks : Option Int := none
  last_opened : Option String := none
  failure_reason : Option String := none
  match_count : Option Nat := none
  sdrName : Option String := none
deriving DecidableEq, Repr

/-! ## Schema normalization (`normalizeSend`, `normalizeOpen`,
`normalizeContacts`) -/

/-- `normalizeSend`: drop rows whose `Domain` contains `loopwork.co`
case-insensitively, then trim `recipient_name`. -/
def normalizeSend (rows : List SendRecord) : List SendRecord :=
  (rows.filter (fun r => !(strIncludes (lowerStr r.domain) "loopwork.co"))).map
    (fun r => { r with recipient_name := trimStr r.recipient_name })

/-- `normalizeOpen`: trim `recipient_name` and keep only the part before
the first comma; reformat a truthy `sent_date` through the external
date-round-trip `reformat`; coerce empty `Views`/`Clicks` to 0. -/
def normalizeOpen (reformat : String → String) (rows : List OpenRaw) : List OpenRecord :=
  rows.map fun r =>
    let v := trimStr r.recipient_name
    let name := if v.data.contains ',' then trimStr (String.mk (v.data.takeWhile (fun c => !(c == ',')))) else v
    let sd := if r.sent_date = "" then r.sent_date else reformat r.sent_date
    { recipient_name := name
      sent_date := sd
      Views := r.Views.getD 0
      Clicks := r.Clicks.getD 0
      last_opened := r.last_opened }

/-- `normalizeContacts`: lowercase and trim `Email` (JS does
`String(x).trim().toLowerCase()`; on ASCII the order is immaterial and
`normKey` is reused). -/
def normalizeContacts (rows : List ContactRecord) : List ContactRecord :=
  rows.map fun r => { r with Email := normKey r.Email }

/-! ## Temporal join engine (`phase1Matching`, `phase2Matching`,
`joinSendAndOpen`)

The JS builds a `Map` from normalized recipient name to the list of open
records (each carrying its original array index `_index`).  A bucket is
embedded as the order-preserving filter of the enumerated open list. -/

/-- The email bucket of Phase 1: all (index, open) pairs whose normalized
`recipient_name` equals `email`, in input order. -/
def p1bucket (opens : List OpenRecord) (email : String) : List (Nat × OpenRecord) :=
  opens.enum.filter (fun p => normKey p.2.recipient_name == email)

/-- The open records matching one search instant: bucket entries whose
parsed instant equals `sendInstant + increment` seconds exactly. -/
def matchesAt (bucket : List (Nat × OpenRecord)) (t : Int) (inc : Nat) :
    List (Nat × OpenRecord) :=
  bucket.filter (fun p => p.2.sent_date_parsed == some (t + (inc : Int) * 1000))

/-- Outcome of one increment scan. -/
inductive ScanResult where
  | matched (p : Nat × OpenRecord)
  | ambiguous (inc : Nat) (count : Nat)
  | noMatch
deriving DecidableEq, Repr

/-- The `for (increment …) { … break }` loop: scan `n` increments starting
at `inc`, stopping at the first increment with any matches — exactly one
is a match, two or more an ambiguity. -/
def scanLoop (bucket : List (Nat × OpenRecord)) (t : Int) : Nat → Nat → ScanResult
  | _, 0 => .noMatch
  | inc, n + 1 =>
    match matchesAt bucket t inc with
    | [] => scanLoop bucket t (inc + 1) n
    | [m] => .matched m
    | ms => .ambiguous inc ms.length

/-- What the scan produces at a hit increment, as a function of the match
list there. -/
def scanHit (ms : List (Nat × OpenRecord)) (inc : Nat) : ScanResult :=
  match ms with
  | [] => .noMatch
  | [m] => .matched m
  | ms => .ambiguous inc ms.length

/-- Phase 1 increment scan: `for (let increment = 0; increment < 12; …)`. -/
def p1Scan (bucket : List (Nat × OpenRecord)) (t : Int) : ScanResult :=
  scanLoop bucket t 0 12

/-- Phase 2 increment scan: `for (let increment = 12; increment <= 60; …)`. -/
def p2Scan (bucket : List (Nat × OpenRecord)) (t : Int) : ScanResult :=
  scanLoop bucket t 12 49

/-- Per-send result of a phase body: a success additionally records the
`_index` added to `usedIndices`. -/
inductive EntryResult where
  | ok (j : JoinedRecord) (idx : Nat)
  | fail (j : JoinedRecord)
deriving DecidableEq, Repr

/-- The Phase-1 loop body for one send record.  `bk` is the email-bucket
lookup built from the open rows.  `matched.Views || 0` is the identity on
the already-coerced numeric `Views` (0 falls through to 0), so the merge
copies the matched values. -/
def phase1Entry (bk : String → List (Nat × OpenRecord)) (send : SendRecord) :
    EntryResult :=
  match send.sent_date_parsed with
  | none => .fail { send := send, failure_reason := some "invalid_send_date" }
  | some t =>
    match p1Scan (bk (normKey send.recipient_name)) t with
    | .matched p =>
        .ok { send := send
              Views := some p.2.Views
              Clicks := some p.2.Clicks
              last_opened := some (jsOrStr p.2.last_opened p.2.sent_date) } p.1
    | .ambiguous inc n =>
        .fail { send := send
                failure_reason := some s!"multiple_matches_at_plus_{inc}_seconds"
                match_count := some n }
    | .noMatch =>
        .fail { send := send, failure_reason := some "no_match_within_11_seconds" }

/-- Result triple of `phase1Matching`.  `usedIndices` is a JS `Set`
consulted only through membership, embedded as the list of added indices. -/
structure Phase1Result where
  successful : List JoinedRecord
  failed : List JoinedRecord
  usedIndices : List Nat
deriving DecidableEq, Repr

/-- The `sendRows.forEach` of Phase 1.  The accumulated state is never read
by the loop body (the bucket map and `usedIndices` membership are not
consulted during Phase-1 scanning), so the fold is a direct recursion. -/
def phase1Go (bk : String → List (Nat × OpenRecord)) : List SendRecord → Phase1Result
  | [] => ⟨[], [], []⟩
  | s :: rest =>
    let acc := phase1Go bk rest
    match phase1Entry bk s with
    | .ok j idx => ⟨j :: acc.successful, acc.failed, idx :: acc.usedIndices⟩
    | .fail j => ⟨acc.successful, j :: acc.failed, acc.usedIndices⟩

/-- `phase1Matching(sendRows, openRows)`. -/
def phase1Matching (sends : List SendRecord) (opens : List OpenRecord) : Phase1Result :=
  phase1Go (p1bucket opens) sends

/-- The unused open records of Phase 2: `openRows` enumerated and filtered
to the indices not recorded in `usedIndices`. -/
def unusedOpens (opens : List OpenRecord) (used : List Nat) : List (Nat × OpenRecord) :=
  opens.enum.filter (fun p => !(used.contains p.1))

/-- The email bucket of Phase 2, drawn only from the unused open records. -/
def p2bucket (opens : List OpenRecord) (used : List Nat) (email : String) :
    List (Nat × OpenRecord) :=
  (unusedOpens opens used).filter (fun p => normKey p.2.recipient_name == email)

/-- The Phase-2 loop body for one Phase-1-failed record.  A match spreads
onto the failed record (`{...failed, Views: …}`), so the Phase-1
`failure_reason`/`match_count` keys survive a Phase-2 success exactly as in
the source.  Phase 2 does not add to `usedIndices`. -/
def phase2Entry (opens : List OpenRecord) (used : List Nat) (f : JoinedRecord) :
    EntryResult :=
  match f.send.sent_date_parsed with
  | none => .fail { f with failure_reason := some "invalid_send_date" }
  | some t =>
    match p2Scan (p2bucket opens used (normKey f.send.recipient_name)) t with
    | .matched p =>
        .ok { f with
              Views := some p.2.Views
              Clicks := some p.2.Clicks
              last_opened := some (jsOrStr p.2.last_opened p.2.sent_date) } p.1
    | .ambiguous inc n =>
        .fail { f with
                failure_reason := some s!"multiple_matches_at_plus_{inc}_seconds_phase2"
                match_count := some n }
    | .noMatch =>
        .fail { f with failure_reason := some "no_match_within_60_seconds" }

/-- Result pair of `phase2Matching`. -/
structure Phase2Result where
  successful : List JoinedRecord
  failed : List JoinedRecord
deriving DecidableEq, Repr

/-- The `failedRecords.forEach` of Phase 2; like Phase 1, the loop body
never reads the accumulated state. -/
def phase2Go (opens : List OpenRecord) (used : List Nat) :
    List JoinedRecord → Phase2Result
  | [] => ⟨[], []⟩
  | f :: rest =>
    let acc := phase2Go opens used rest
    match phase2Entry opens used f with
    | .ok j _ => ⟨j :: acc.successful, acc.failed⟩
    | .fail j => ⟨acc.successful, j :: acc.failed⟩

/-- `phase2Matching(failedRecords, openRows, usedIndices)`. -/
def phase2Matching (failedRecords : List JoinedRecord) (opens : List OpenRecord)
    (used : List Nat) : Phase2Result :=
  phase2Go opens used failedRecords

/-- The left-join materialization of one still-failed record: delete
`failure_reason`/`match_count` and null the open fields. -/
def leftJoinNull (f : JoinedRecord) : JoinedRecord :=
  { f with failure_reason := none, match_count := none,
           Views := none, Clicks := none, last_opened := none }

/-- Result pair of `joinSendAndOpen`. -/
structure SendOpenResult where
  sendOpenSuccess : List JoinedRecord
  sendOpenFailures : List JoinedRecord
deriving DecidableEq, Repr

/-- `joinSendAndOpen(sendRows, openRows)`: Phase 1, Phase 2 on the Phase-1
failures against the unconsumed opens, then the left join that folds every
residual failure into the success list with nulls. -/
def joinSendAndOpen (sends : List SendRecord) (opens : List OpenRecord) :
    SendOpenResult :=
  let p1 := phase1Matching sends opens
  let p2 := phase2Matching p1.failed opens p1.usedIndices
  { sendOpenSuccess := (p1.successful ++ p2.successful) ++ p2.failed.map leftJoinNull
    sendOpenFailures := [] }

/-! ## Contact merge stage (`joinWithContacts`) -/

/-- The merged output row `{...row, ...contact, "Company URL ID": id}`.
The contact is spread second, so its fields win on conflict; the canonical
send/open fields carry no `Email`/`Company URL` key, hence the merged
row's `Company URL` is the contact's. -/
structure FinalRecord where
  row : JoinedRecord
  contact : ContactRecord
  companyUrlId : Option Nat := none
deriving DecidableEq, Repr

/-- JS truthiness of the merged `Company URL` value: absent, `null` and
`""` are falsy. -/
def urlTruthy : Option String → Bool
  | none => false
  | some s => !(s == "")

/-- The surrogate-key string: `String(merged["Company URL"]).toLowerCase().trim()`
(only evaluated on truthy values, where `getD` is exact). -/
def mergedUrlKey (c : ContactRecord) : String :=
  normKey (c.companyURL.getD "")

/-- The contact lookup build: first contact per non-empty normalized email
wins; empty emails are never entered. -/
def buildContactLookup (contacts : List ContactRecord) : List (String × ContactRecord) :=
  contacts.foldl
    (fun m c =>
      let email := normKey c.Email
      if email ≠ "" ∧ (m.lookup email).isNone then m ++ [(email, c)] else m)
    []

/-- `contactLookup.get(email)`. -/
def contactFor (contacts : List ContactRecord) (email : String) : Option ContactRecord :=
  (buildContactLookup contacts).lookup email

/-- The normalized lookup email of an input row:
`(row["Recipient Email"] || "").toLowerCase().trim()`. -/
def rowEmail (r : JoinedRecord) : String :=
  normKey r.send.recipientEmail

/-- The mutable state of the `sendOpenRows.forEach` loop in
`joinWithContacts`: the two output arrays, the `companyUrlToId` map and
the `nextId` counter. -/
structure JwcState where
  successful : List FinalRecord
  failures : List JoinedRecord
  urlMap : List (String × Nat)
  nextId : Nat
deriving DecidableEq, Repr

/-- One iteration of the `joinWithContacts` loop. -/
def jwcStep (contacts : List ContactRecord) (st : JwcState) (row : JoinedRecord) :
    JwcState :=
  match contactFor contacts (rowEmail row) with
  | some contact =>
    if urlTruthy contact.companyURL then
      let url := mergedUrlKey contact
      match st.urlMap.lookup url with
      | some n =>
          { st with successful := st.successful ++ [⟨row, contact, some n⟩] }
      | none =>
          { st with
            successful := st.successful ++ [⟨row, contact, some st.nextId⟩]
            urlMap := st.urlMap ++ [(url, st.nextId)]
            nextId := st.nextId + 1 }
    else
      { st with successful := st.successful ++ [⟨row, contact, none⟩] }
  | none =>
      { st with
        failures := st.failures ++
          [{ row with failure_reason := some "Send email not found in contacts" }] }

/-- The final loop state of `joinWithContacts` (`nextId` starts at 1). -/
def jwcState (rows : List JoinedRecord) (contacts : List ContactRecord) : JwcState :=
  rows.foldl (jwcStep contacts) ⟨[], [], [], 1⟩

/-- `joinWithContacts(sendOpenRows, contactRows)`:
`{ successful, contactFailures }`. -/
def joinWithContacts (rows : List JoinedRecord) (contacts : List ContactRecord) :
    List FinalRecord × List JoinedRecord :=
  let st := jwcState rows contacts
  (st.successful, st.failures)

/-! ## Single pipeline (`processEmailPipeline`)

CSV loading is external (`loadCsv` resolves text through PapaParse); the
core receives the already-parsed row lists.  `validateRequired` checks the
required column names on the first row and that the file is non-empty; in
this typed embedding every canonical column exists by construction, so
only the `no rows found` branch is representable. -/

/-- The statistics object of the pipeline result. -/
structure PipelineStats where
  total_send_records : Nat
  total_open_records : Nat
  total_contact_records : Nat
  send_open_success : Nat
  send_open_failures : Nat
  contact_join_success : Nat
  contact_join_failures : Nat
deriving DecidableEq, Repr

/-- The `{ successful, failed, stats }` result of `processEmailPipeline`. -/
structure PipelineOutput where
  successful : List FinalRecord
  failed : List JoinedRecord
  stats : PipelineStats
deriving DecidableEq, Repr

/-- Assign `sent_date_parsed` on every send row
(`sendNorm.forEach(r => r.sent_date_parsed = parseDateFlexible(r.sent_date))`). -/
def assignParsedSend (parse : String → Option Int) (rows : List SendRecord) :
    List SendRecord :=
  rows.map fun r => { r with sent_date_parsed := parse r.sent_date }

/-- Assign `sent_date_parsed` on every open row. -/
def assignParsedOpen (parse : String → Option Int) (rows : List OpenRecord) :
    List OpenRecord :=
  rows.map fun o => { o with sent_date_parsed := parse o.sent_date }

/-- `processEmailPipeline(sendCsv, openCsv, contactsCsv)` after CSV
loading: normalize, validate, parse dates, drop rows with invalid dates,
join send↔open, join with contacts, assemble stats. -/
def processEmailCore (parse : String → Option Int) (reformat : String → String)
    (sendRows : List SendRecord) (openRows : List OpenRaw)
    (contactRows : List ContactRecord) : Except String PipelineOutput :=
  let sendNorm0 := normalizeSend sendRows
  let openNorm0 := normalizeOpen reformat openRows
  let contactsNorm := normalizeContacts contactRows
  if sendNorm0.isEmpty then .error "Send CSV: no rows found"
  else if openNorm0.isEmpty then .error "Open CSV: no rows found"
  else if contactsNorm.isEmpty then .error "Contacts CSV: no rows found"
  else
    let sendNorm := assignParsedSend parse sendNorm0
    let openNorm := assignParsedOpen parse openNorm0
    let sendValid := sendNorm.filter (fun r => r.sent_date_parsed.isSome)
    let openValid := openNorm.filter (fun r => r.sent_date_parsed.isSome)
    let so := joinSendAndOpen sendValid openValid
    let jw := joinWithContacts so.sendOpenSuccess contactsNorm
    .ok
      { successful := jw.1
        failed := so.sendOpenFailures ++ jw.2
        stats :=
          { total_send_records := sendNorm.length
            total_open_records := openNorm.length
            total_contact_records := contactsNorm.length
            send_open_success := so.sendOpenSuccess.length
            send_open_failures := so.sendOpenFailures.length
            contact_join_success := jw.1.length
            contact_join_failures := jw.2.length } }

/-! ## Multi-SDR pipeline (`processMultiSdrPipeline`) -/

/-- One SDR configuration after CSV loading (`name || "SDR"`: the empty
string models an absent name). -/
structure SdrConfig where
  name : String := ""
  sendRows : List SendRecord
  openRows : List OpenRaw
deriving Repr

/-- One entry of the `sdrStats` breakdown. -/
structure SdrStat where
  name : String
  total_send_records : Nat
  matched : Nat
  failures : Nat
deriving DecidableEq, Repr

/-- The accumulated state of the per-SDR loop. -/
structure BatchAcc where
  allSuccess : List JoinedRecord
  allFailures : List JoinedRecord
  sdrStats : List SdrStat
  totalSend : Nat
  totalOpen : Nat
deriving DecidableEq, Repr

/-- The `for (const config of sdrConfigs)` loop: normalize and validate
each batch, join send↔open, tag every resulting row with the batch label
under `SDR_Name`, and accumulate rows, per-batch stats and totals. -/
def batchLoop (parse : String → Option Int) (reformat : String → String) :
    List SdrConfig → Except String BatchAcc
  | [] => .ok ⟨[], [], [], 0, 0⟩
  | cfg :: rest =>
    let label := if cfg.name = "" then "SDR" else cfg.name
    let sendNorm0 := normalizeSend cfg.sendRows
    let openNorm0 := normalizeOpen reformat cfg.openRows
    if sendNorm0.isEmpty then .error (label ++ " Send CSV: no rows found")
    else if openNorm0.isEmpty then .error (label ++ " Open CSV: no rows found")
    else
      let sendNorm := assignParsedSend parse sendNorm0
      let openNorm := assignParsedOpen parse openNorm0
      let sendValid := sendNorm.filter (fun r => r.sent_date_parsed.isSome)
      let openValid := openNorm.filter (fun r => r.sent_date_parsed.isSome)
      let so := joinSendAndOpen sendValid openValid
      let tagged := so.sendOpenSuccess.map (fun r => { r with sdrName := some label })
      let taggedF := so.sendOpenFailures.map (fun r => { r with sdrName := some label })
      match batchLoop parse reformat rest with
      | .error e => .error e
      | .ok acc =>
        .ok ⟨tagged ++ acc.allSuccess, taggedF ++ acc.allFailures,
             ⟨label, sendNorm.length, so.sendOpenSuccess.length,
              so.sendOpenFailures.length⟩ :: acc.sdrStats,
             sendNorm.length + acc.totalSend, openNorm.length + acc.totalOpen⟩

/-- The `{ successful, failed, stats, sdrStats }` result of
`processMultiSdrPipeline`. -/
structure MultiOutput where
  successful : List FinalRecord
  failed : List JoinedRecord
  stats : PipelineStats
  sdrStats : List SdrStat
deriving DecidableEq, Repr

/-- `processMultiSdrPipeline(sdrConfigs, contactsCsv)` after CSV loading:
fail fast on an empty batch list, validate the shared contacts, run every
batch, fail if no send-open joins succeeded, merge with contacts and roll
up statistics. -/
def processMultiSdr (parse : String → Option Int) (reformat : String → String)
    (configs : List SdrConfig) (contactRows : List ContactRecord) :
    Except String MultiOutput :=
  if configs.isEmpty then .error "At least one SDR configuration is required"
  else
    let contactsNorm := normalizeContacts contactRows
    if contactsNorm.isEmpty then .error "Contacts CSV: no rows found"
    else
      match batchLoop parse reformat configs with
      | .error e => .error e
      | .ok acc =>
        if acc.allSuccess.isEmpty then .error "No SDR send-open joins were successful"
        else
          let jw := joinWithContacts acc.allSuccess contactsNorm
          .ok
            { successful := jw.1
              failed := acc.allFailures ++ jw.2
              stats :=
                { total_send_records := acc.totalSend
                  total_open_records := acc.totalOpen
                  total_contact_records := contactsNorm.length
                  send_open_success := acc.allSuccess.length
                  send_open_failures := acc.allFailures.length
                  contact_join_success := jw.1.length
                  contact_join_failures := jw.2.length }
              sdrStats := acc.sdrStats }

/-! ## Validation checker (`validateSdrSendData`, `dataChecker.js`)

The checker consumes an arbitrary (possibly hand-built) result object, so
its input is embedded with every field optional as the source reads it
(`emailData.stats?.total_send_records || 0`).  The successful/failed rows
enter the error checks only through their lengths; row-level fields feed
only the `warnings`/`summary` side channels, which never influence
`passed`/`errors` and are not modelled. -/

/-- A hand-built stats object as read by the checker.  Note the checker
reads `send_open_failed`, not the pipeline's `send_open_failures`. -/
structure CheckStats where
  total_send_records : Option Int := none
  send_open_success : Option Int := none
  send_open_failed : Option Int := none
deriving DecidableEq, Repr

/-- One entry of a hand-built `sdrStats` array as read by the checker. -/
structure CheckSdrStat where
  name : String := ""
  total_send_records : Option Int := none
  matched : Option Int := none
  failures : Option Int := none
deriving DecidableEq, Repr

/-- The checker's view of `emailData`; `successful = none` models a
missing/non-array field. -/
structure CheckData where
  successful : Option (List Unit) := none
  failed : Option (List Unit) := none
  stats : Option CheckStats := none
  sdrStats : Option (List CheckSdrStat) := none
deriving DecidableEq, Repr

/-- `{ passed, errors }` of the checker (warnings/summary omitted: they
never affect these two fields). -/
structure CheckResult where
  passed : Bool
  errors : List String
deriving DecidableEq, Repr

/-- The stats-inconsistency message of check 4 (source line 45). -/
def statsIncMsg (tot suc fl calcTotal : Int) : String :=
  s!"Stats inconsistency: total_send_records ({tot}) != send_open_success ({suc}) + send_open_failed ({fl}) = {calcTotal}"

/-- Check 4: stats-level arithmetic consistency. -/
def check4Errors (tot suc fl : Int) : List String :=
  if 0 < tot ∧ tot ≠ suc + fl then [statsIncMsg tot suc fl (suc + fl)] else []

/-- Check 5: emitted row count versus stats total. -/
def check5Errors (tot processedTotalRecords : Int) : List String :=
  if 0 < tot ∧ processedTotalRecords ≠ tot then
    [s!"Data mismatch: Processed records ({processedTotalRecords}) != Stats total_send_records ({tot})"]
  else []

/-- Check 6: per-SDR sums versus the overall statistics. -/
def check6Errors (tot suc fl : Int) (sdrStats : Option (List CheckSdrStat)) :
    List String :=
  match sdrStats with
  | none => []
  | some l =>
    let sumTot := l.foldl (fun a s => a + s.total_send_records.getD 0) 0
    let sumMatched := l.foldl (fun a s => a + s.matched.getD 0) 0
    let sumFailed := l.foldl (fun a s => a + s.failures.getD 0) 0
    (if 0 < tot ∧ sumTot ≠ tot then
      [s!"SDR stats sum mismatch: Sum of SDR total_send_records ({sumTot}) != Overall total_send_records ({tot})"]
     else []) ++
    (if 0 < suc ∧ sumMatched ≠ suc then
      [s!"SDR matched sum mismatch: Sum of SDR matched ({sumMatched}) != Overall send_open_success ({suc})"]
     else []) ++
    (if 0 < fl ∧ sumFailed ≠ fl then
      [s!"SDR failures sum mismatch: Sum of SDR failures ({sumFailed}) != Overall send_open_failed ({fl})"]
     else [])

/-- `emailData.stats?.total_send_records || 0`. -/
def statsTot (d : CheckData) : Int :=
  (d.stats.bind (fun s => s.total_send_records)).getD 0

/-- `emailData.stats?.send_open_success || 0`. -/
def statsSuc (d : CheckData) : Int :=
  (d.stats.bind (fun s => s.send_open_success)).getD 0

/-- `emailData.stats?.send_open_failed || 0` (this key is absent from the
pipeline's own stats, which call it `send_open_failures`). -/
def statsFl (d : CheckData) : Int :=
  (d.stats.bind (fun s => s.send_open_failed)).getD 0

/-- `processedTotalRecords = successful.length + (failed?.length || 0)`. -/
def processedTot (d : CheckData) (succ : List Unit) : Int :=
  (succ.length : Int) + (d.failed.map (fun l => (l.length : Int))).getD 0

/-- `validateSdrSendData(emailData)`: the structural check returns early;
otherwise the error checks run in source order and `passed` ends up true
exactly when no error was recorded. -/
def validateSdrSendData (d : CheckData) : CheckResult :=
  match d.successful with
  | none => ⟨false, ["Invalid emailData structure: missing \x27successful\x27 array"]⟩
  | some succ =>
    let errors :=
      check4Errors (statsTot d) (statsSuc d) (statsFl d) ++
      check5Errors (statsTot d) (processedTot d succ) ++
      check6Errors (statsTot d) (statsSuc d) (statsFl d) d.sdrStats
    ⟨errors.isEmpty, errors⟩

/-! ## Derived definitions used by the statements and proofs -/

/-- The successful half of a per-record phase outcome. -/
def entryOk : EntryResult → Option JoinedRecord
  | .ok j _ => some j
  | .fail _ => none

/-- The failed half of a per-record phase outcome. -/
def entryFail : EntryResult → Option JoinedRecord
  | .ok _ _ => none
  | .fail j => some j

/-- The consumed open index of a per-record phase outcome. -/
def entryIdx : EntryResult → Option Nat
  | .ok _ i => some i
  | .fail _ => none

/-- Deduplication keeping the first occurrence of every element. -/
def firstDedup : List String → List String
  | [] => []
  | u :: us => u :: (firstDedup us).filter (fun v => !(v == u))

/-- Pair the elements of a list with consecutive ranks starting at `k`. -/
def rankMap : List String → Nat → List (String × Nat)
  | [], _ => []
  | u :: us, k => (u, k) :: rankMap us (k + 1)

/-- The sequence of normalized truthy `Company URL` values of the
contact-matched rows, in processing order. -/
def matchedUrls (contacts : List ContactRecord) (rows : List JoinedRecord) :
    List String :=
  rows.filterMap fun r =>
    (contactFor contacts (rowEmail r)).bind fun c =>
      if urlTruthy c.companyURL then some (mergedUrlKey c) else none

/-- The loop invariant of `joinWithContacts`: after processing rows whose
matched truthy URLs are `urls`, the surrogate map ranks the distinct URLs
in first-occurrence order starting at 1, `nextId` is one past the last
assigned rank, and every successful row carries its URL's rank as
`Company URL ID` — or no such field when the URL is absent/empty. -/
def jwcInv (urls : List String) (st : JwcState) : Prop :=
  st.urlMap = rankMap (firstDedup urls) 1 ∧
  st.nextId = (firstDedup urls).length + 1 ∧
  ∀ f ∈ st.successful,
    (urlTruthy f.contact.companyURL = true →
      ∃ n, f.companyUrlId = some n ∧
        st.urlMap.lookup (mergedUrlKey f.contact) = some n) ∧
    (urlTruthy f.contact.companyURL = false → f.companyUrlId = none)

/-! ## Test fixtures

Concrete inputs for the witness and counterexample theorems.  `tParse`
stands in for the external `parseDateFlexible` on the fixture strings
(`tN` parses to `N` seconds after the epoch); the identity function
stands in for the open-date reformatting round-trip. -/

/-- Fixture date parser: `"tN"` is the instant `N * 1000` ms. -/
def tParse : String → Option Int
  | "t0" => some 0
  | "t1" => some 1000
  | "t2" => some 2000
  | "t4" => some 4000
  | "t30" => some 30000
  | _ => none

/-- Two sends of the same recipient at the same instant. -/
def sAnn1 : SendRecord :=
  { recipient_name := "Ann", sent_date := "t1", recipientEmail := "ann@x.com"
    sent_date_parsed := some 1000 }

/-- Second send, identical join key and instant. -/
def sAnn2 : SendRecord :=
  { recipient_name := "Ann", sent_date := "t1", recipientEmail := "ann2@x.com"
    sent_date_parsed := some 1000 }

/-- The single open record both `sAnn1` and `sAnn2` match at +0s. -/
def oAnn : OpenRecord :=
  { recipient_name := "Ann", sent_date := "t1", Views := 5, Clicks := 2
    sent_date_parsed := some 1000 }

/-- An open record matching instant 0 at the +2s increment. -/
def oPlus2 : OpenRecord :=
  { recipient_name := "Wyn", sent_date := "t2", Views := 3, Clicks := 1
    sent_date_parsed := some 2000 }

/-- Two opens at the same instant for the ambiguity fixture. -/
def oBob1 : OpenRecord :=
  { recipient_name := "Bob", sent_date := "t2", Views := 1, Clicks := 0
    sent_date_parsed := some 2000 }

/-- Second ambiguous open, same normalized recipient and instant. -/
def oBob2 : OpenRecord :=
  { recipient_name := "bob ", sent_date := "t2", Views := 2, Clicks := 0
    sent_date_parsed := some 2000 }

/-- A send that has exactly the two `oBob` records at +0s. -/
def sBob : SendRecord :=
  { recipient_name := "Bob", sent_date := "t2", recipientEmail := "bob@x.com"
    sent_date_parsed := some 2000 }

/-- A send whose date failed to parse. -/
def sBad : SendRecord :=
  { recipient_name := "Zed", sent_date := "not a date"
    recipientEmail := "zed@x.com", sent_date_parsed := none }

/-- A valid raw open row for the pipeline fixtures. -/
def oRawOk : OpenRaw :=
  { recipient_name := "Ann", sent_date := "t1", Views := some 5, Clicks := some 2 }

/-- A contact for the pipeline fixtures. -/
def ctAnn : ContactRecord := { Email := "Ann@X.com ", companyURL := some "Ex.com " }

/-- A second contact with a distinct company URL. -/
def ctBob : ContactRecord := { Email := "bob@x.com", companyURL := some "other.com" }

/-- A contact without a company URL. -/
def ctZed : ContactRecord := { Email := "zed@x.com" }

/-- A contact whose `Email` normalizes to the empty string. -/
def ctEmptyMail : ContactRecord := { Email := "  " }

/-- A send-open row whose `Recipient Email` normalizes to the empty string. -/
def rEmptyMail : JoinedRecord :=
  { send := { recipient_name := "Q", sent_date := "t1", recipientEmail := " " } }

/-- The unparseable-date pipeline send row (pre-normalization). -/
def sBadRaw : SendRecord :=
  { recipient_name := "Zed", sent_date := "not a date", recipientEmail := "zed@x.com" }

/-- A parseable pipeline send row (pre-normalization). -/
def sOkRaw : SendRecord :=
  { recipient_name := "Ann", sent_date := "t1", recipientEmail := "ann@x.com" }

/-- The pipeline output of the dropped-row counterexample run, extracted
from the `Except`. -/
def c1RunOut : PipelineOutput :=
  match processEmailCore tParse id [sBadRaw] [oRawOk] [ctAnn] with
  | .ok o => o
  | .error _ => ⟨[], [], ⟨0, 0, 0, 0, 0, 0, 0⟩⟩

/-- The pipeline output of the one-good-send witness run. -/
def c1WitnessOut : PipelineOutput :=
  match processEmailCore tParse id [sOkRaw] [oRawOk] [ctAnn] with
  | .ok o => o
  | .error _ => ⟨[], [], ⟨0, 0, 0, 0, 0, 0, 0⟩⟩

/-- The hand-built drifted stats object of the checker fixtures:
`total_send_records = 10`, `send_open_success = 1`, `send_open_failed = 2`,
so the injected drift (difference) is `10 - 3 = 7`. -/
def dDrift : CheckData :=
  { successful := some []
    stats := some { total_send_records := some 10, send_open_success := some 1
                    send_open_failed := some 2 } }

/-- A single-batch configuration whose only send row has an unparseable
date, so its batch joins zero send-open rows. -/
def cfgNoJoin : SdrConfig :=
  { name := "Alpha", sendRows := [sBadRaw], openRows := [oRawOk] }

/-- The batch accumulator of the `cfgNoJoin` run, extracted from the
`Except`. -/
def cfgNoJoinAcc : BatchAcc :=
  match batchLoop tParse id [cfgNoJoin] with
  | .ok a => a
  | .error _ => ⟨[], [], [], 0, 0⟩

/-- A one-send one-open one-contact multi-SDR configuration that joins
successfully. -/
def cfgOk : SdrConfig :=
  { name := "Beta", sendRows := [sOkRaw], openRows := [oRawOk] }

/-- Rows for the contact-merge fixtures: two contact-matched rows whose
contacts carry distinct URLs and one whose contact has no URL. -/
def c7Rows : List JoinedRecord :=
  [{ send := sAnn1 }, { send := sBob }, { send := sBadRaw }]

/-- Contacts for the contact-merge fixtures. -/
def c7Contacts : List ContactRecord := [ctAnn, ctBob, ctZed]

/-! ## Helper lemmas: the increment scan -/

/-- If every increment strictly before `inc` is matchless and `inc` (inside
the scanned window) has matches, the scan stops at `inc` with the outcome
determined by the match list there. -/
theorem scanLoop_first_hit (b : List (Nat × OpenRecord)) (t : Int) :
    ∀ (n start inc : Nat), start ≤ inc → inc < start + n →
      (∀ j, start ≤ j → j < inc → matchesAt b t j = []) →
      matchesAt b t inc ≠ [] →
      scanLoop b t start n = scanHit (matchesAt b t inc) inc := by
  intro n
  induction n with
  | zero => intro start inc h1 h2 _ _; omega
  | succ n ih =>
    intro start inc h1 h2 hemp hne
    rcases Nat.eq_or_lt_of_le h1 with heq | hlt
    · subst heq
      cases hms : matchesAt b t start with
      | nil => exact absurd hms hne
      | cons m ms =>
        cases ms with
        | nil => simp [scanLoop, hms, scanHit]
        | cons m2 ms2 => simp [scanLoop, hms, scanHit]
    · have hstart : matchesAt b t start = [] := hemp start le_rfl hlt
      have hstep : scanLoop b t start (n + 1) = scanLoop b t (start + 1) n := by
        simp [scanLoop, hstart]
      rw [hstep]
      exact ih (start + 1) inc hlt (by omega) (fun j hj1 hj2 => hemp j (by omega) hj2) hne

/-- If every increment in the scanned window is matchless, the scan ends
in `noMatch`. -/
theorem scanLoop_all_empty (b : List (Nat × OpenRecord)) (t : Int) :
    ∀ (n start : Nat), (∀ j, start ≤ j → j < start + n → matchesAt b t j = []) →
      scanLoop b t start n = .noMatch := by
  intro n
  induction n with
  | zero => intro start _; rfl
  | succ n ih =>
    intro start hemp
    have hstart : matchesAt b t start = [] := hemp start le_rfl (by omega)
    have hstep : scanLoop b t start (n + 1) = scanLoop b t (start + 1) n := by
      simp [scanLoop, hstart]
    rw [hstep]
    exact ih (start + 1) (fun j hj1 hj2 => hemp j (by omega) (by omega))

/-- A hit with two or more matches is an ambiguity outcome. -/
theorem scanHit_ambiguous (ms : List (Nat × OpenRecord)) (inc : Nat)
    (h : 2 ≤ ms.length) : scanHit ms inc = .ambiguous inc ms.length := by
  match ms with
  | [] => simp at h
  | [m] => simp at h
  | m1 :: m2 :: rest => rfl

/-! ## Helper lemmas: per-record phase folds -/

/-- Phase 1 is the per-send map of `phase1Entry` over the send list: each
send's outcome depends only on the send and the (full) open pool, never on
the outcomes of previously processed sends. -/
theorem phase1Go_eq (bk : String → List (Nat × OpenRecord)) (sends : List SendRecord) :
    phase1Go bk sends =
      ⟨sends.filterMap (fun s => entryOk (phase1Entry bk s)),
       sends.filterMap (fun s => entryFail (phase1Entry bk s)),
       sends.filterMap (fun s => entryIdx (phase1Entry bk s))⟩ := by
  induction sends with
  | nil => rfl
  | cons s rest ih =>
    cases h : phase1Entry bk s <;>
      simp [phase1Go, h, ih, entryOk, entryFail, entryIdx, List.filterMap_cons]

/-- Phase 2 is the per-record map of `phase2Entry` over the Phase-1
failures. -/
theorem phase2Go_eq (opens : List OpenRecord) (used : List Nat)
    (fl : List JoinedRecord) :
    phase2Go opens used fl =
      ⟨fl.filterMap (fun f => entryOk (phase2Entry opens used f)),
       fl.filterMap (fun f => entryFail (phase2Entry opens used f))⟩ := by
  induction fl with
  | nil => rfl
  | cons f rest ih =>
    cases h : phase2Entry opens used f <;>
      simp [phase2Go, h, ih, entryOk, entryFail, List.filterMap_cons]

/-- Every send contributes to exactly one of the Phase-1 output lists. -/
theorem phase1Go_length (bk : String → List (Nat × OpenRecord))
    (sends : List SendRecord) :
    (phase1Go bk sends).successful.length + (phase1Go bk sends).failed.length =
      sends.length := by
  induction sends with
  | nil => rfl
  | cons s rest ih =>
    cases h : phase1Entry bk s <;> simp [phase1Go, h] <;> omega

/-- Every Phase-1 failure contributes to exactly one of the Phase-2 output
lists. -/
theorem phase2Go_length (opens : List OpenRecord) (used : List Nat)
    (fl : List JoinedRecord) :
    (phase2Go opens used fl).successful.length + (phase2Go opens used fl).failed.length =
      fl.length := by
  induction fl with
  | nil => rfl
  | cons f rest ih =>
    cases h : phase2Entry opens used f <;> simp [phase2Go, h] <;> omega

/-- The left join emits exactly one output row per input send row. -/
theorem joinSendAndOpen_length (sends : List SendRecord) (opens : List OpenRecord) :
    (joinSendAndOpen sends opens).sendOpenSuccess.length = sends.length := by
  have h1 := phase1Go_length (p1bucket opens) sends
  have h2 := phase2Go_length opens (phase1Go (p1bucket opens) sends).usedIndices
    (phase1Go (p1bucket opens) sends).failed
  simp only [joinSendAndOpen, phase1Matching, phase2Matching, List.length_append,
    List.length_map] at *
  omega

/-! ## Helper lemmas: Phase-2 candidate pool -/

/-- Membership in the unused-open pool excludes the used indices. -/
theorem mem_unusedOpens_not_used (opens : List OpenRecord) (used : List Nat)
    (p : Nat × OpenRecord) (h : p ∈ unusedOpens opens used) : p.1 ∉ used := by
  have := (List.mem_filter.mp h).2
  simpa using this

/-- Membership in a Phase-2 email bucket excludes the used indices. -/
theorem mem_p2bucket_not_used (opens : List OpenRecord) (used : List Nat)
    (email : String) (p : Nat × OpenRecord) (h : p ∈ p2bucket opens used email) :
    p.1 ∉ used :=
  mem_unusedOpens_not_used opens used p (List.mem_filter.mp h).1

/-! ## Helper lemmas: contact merge fold -/

/-- Every row contributes to exactly one of the contact-merge output
lists. -/
theorem jwcFold_length (contacts : List ContactRecord) :
    ∀ (rows : List JoinedRecord) (st : JwcState),
      (rows.foldl (jwcStep contacts) st).successful.length +
        (rows.foldl (jwcStep contacts) st).failures.length =
      st.successful.length + st.failures.length + rows.length := by
  intro rows
  induction rows with
  | nil => intro st; simp
  | cons r rest ih =>
    intro st
    rw [List.foldl_cons, ih (jwcStep contacts st r)]
    unfold jwcStep
    cases h : contactFor contacts (rowEmail r) with
    | none => simp; omega
    | some c =>
      by_cases hu : urlTruthy c.companyURL
      · cases hl : st.urlMap.lookup (mergedUrlKey c) <;> simp [hu, hl] <;> omega
      · simp [hu]; omega

/-- The failure list of the contact merge: the initial failures followed by
one tagged record per row whose email has no contact. -/
theorem jwcFold_failures (contacts : List ContactRecord) :
    ∀ (rows : List JoinedRecord) (st : JwcState),
      (rows.foldl (jwcStep contacts) st).failures =
        st.failures ++ rows.filterMap (fun r =>
          if (contactFor contacts (rowEmail r)).isNone then
            some { r with failure_reason := some "Send email not found in contacts" }
          else none) := by
  intro rows
  induction rows with
  | nil => intro st; simp
  | cons r rest ih =>
    intro st
    rw [List.foldl_cons, ih (jwcStep contacts st r)]
    unfold jwcStep
    cases h : contactFor contacts (rowEmail r) with
    | none => simp [List.filterMap_cons, h]
    | some c =>
      by_cases hu : urlTruthy c.companyURL
      · cases hl : st.urlMap.lookup (mergedUrlKey c) <;>
          simp [hu, hl, List.filterMap_cons, h]
      · simp [hu, List.filterMap_cons, h]

/-- Every key stored in the contact lookup is a non-empty normalized
email. -/
theorem buildContactLookup_keys_ne_empty (contacts : List ContactRecord) :
    ∀ p ∈ buildContactLookup contacts, p.1 ≠ "" := by
  unfold buildContactLookup
  suffices h : ∀ (cs : List ContactRecord) (m : List (String × ContactRecord)),
      (∀ p ∈ m, p.1 ≠ "") →
      ∀ p ∈ cs.foldl (fun m c =>
        let email := normKey c.Email
        if email ≠ "" ∧ (m.lookup email).isNone then m ++ [(email, c)] else m) m,
        p.1 ≠ "" by
    exact h contacts [] (by simp)
  intro cs
  induction cs with
  | nil => intro m hm; simpa using hm
  | cons c rest ih =>
    intro m hm
    refine ih _ ?_
    intro p hp
    dsimp only at hp
    split at hp
    · next hcond =>
      rcases List.mem_append.mp hp with h1 | h2
      · exact hm p h1
      · simp at h2
        rw [h2]
        exact hcond.1
    · exact hm p hp

/-- Looking an empty key up in an association list with no empty keys
fails. -/
theorem lookup_empty_of_keys_ne (m : List (String × ContactRecord))
    (hm : ∀ p ∈ m, p.1 ≠ "") : m.lookup "" = none := by
  induction m with
  | nil => rfl
  | cons q rest ih =>
    have hq : q.1 ≠ "" := hm q (by simp)
    have : ("" == q.1) = false := by
      simpa using fun h => hq h.symm
    simp only [List.lookup, this]
    exact ih (fun p hp => hm p (by simp [hp]))

/-! ## Helper lemmas: first-occurrence ranking -/

/-- `firstDedup` preserves membership. -/
theorem mem_firstDedup (v : String) : ∀ (l : List String), v ∈ firstDedup l ↔ v ∈ l := by
  intro l
  induction l with
  | nil => simp [firstDedup]
  | cons u us ih =>
    simp only [firstDedup, List.mem_cons, List.mem_filter, ih]
    by_cases hv : v = u
    · simp [hv]
    · simp [hv]

/-- Appending an element either leaves the first-occurrence list unchanged
or appends it at the end. -/
theorem firstDedup_append_singleton (u : String) :
    ∀ (l : List String), firstDedup (l ++ [u]) =
      if u ∈ l then firstDedup l else firstDedup l ++ [u] := by
  intro l
  induction l with
  | nil => simp [firstDedup]
  | cons x l ih =>
    by_cases hu : u ∈ l
    · have ih' : firstDedup (l ++ [u]) = firstDedup l := by rw [ih]; simp [hu]
      simp [firstDedup, ih', hu]
    · by_cases hx : u = x
      · subst hx
        have ih' : firstDedup (l ++ [u]) = firstDedup l ++ [u] := by
          rw [ih]; simp [hu]
        simp [firstDedup, ih', List.filter_append]
      · have ih' : firstDedup (l ++ [u]) = firstDedup l ++ [u] := by
          rw [ih]; simp [hu]
        have hmem : ¬ u ∈ x :: l := by simp [hx, hu]
        simp [firstDedup, ih', hmem, List.filter_append,
          show (!(u == x)) = true by simpa using hx]

/-- Ranking an appended element places it after the last rank. -/
theorem rankMap_append_singleton (u : String) :
    ∀ (l : List String) (k : Nat),
      rankMap (l ++ [u]) k = rankMap l k ++ [(u, k + l.length)] := by
  intro l
  induction l with
  | nil => intro k; simp [rankMap]
  | cons x l ih =>
    intro k
    have harith : k + 1 + l.length = k + (l.length + 1) := by omega
    rw [List.cons_append]
    simp only [rankMap, ih (k + 1), List.cons_append, List.length_cons, harith]

/-- Every rank in `rankMap l k` is at least `k`. -/
theorem lookup_rankMap_ge (u : String) :
    ∀ (l : List String) (k n : Nat), (rankMap l k).lookup u = some n → k ≤ n := by
  intro l
  induction l with
  | nil => intro k n h; simp [rankMap, List.lookup] at h
  | cons x l ih =>
    intro k n h
    by_cases hx : u = x
    · simp [rankMap, List.lookup, hx] at h
      omega
    · simp only [rankMap, List.lookup, show (u == x) = false by simpa using hx] at h
      have := ih (k + 1) n h
      omega

/-- A rank lookup fails exactly on the elements outside the list. -/
theorem lookup_rankMap_none (u : String) :
    ∀ (l : List String) (k : Nat), (rankMap l k).lookup u = none ↔ u ∉ l := by
  intro l
  induction l with
  | nil => intro k; simp [rankMap, List.lookup]
  | cons x l ih =>
    intro k
    by_cases hx : u = x
    · simp [rankMap, List.lookup, hx]
    · simp only [rankMap, List.lookup, show (u == x) = false by simpa using hx,
        List.mem_cons, ih]
      simp [hx]

/-- Two keys holding the same rank are equal. -/
theorem lookup_rankMap_inj (u₁ u₂ : String) :
    ∀ (l : List String) (k n : Nat),
      (rankMap l k).lookup u₁ = some n → (rankMap l k).lookup u₂ = some n →
      u₁ = u₂ := by
  intro l
  induction l with
  | nil => intro k n h; simp [rankMap, List.lookup] at h
  | cons x l ih =>
    intro k n h1 h2
    by_cases hx1 : u₁ = x <;> by_cases hx2 : u₂ = x
    · rw [hx1, hx2]
    · simp [rankMap, List.lookup, hx1] at h1
      simp only [rankMap, List.lookup, show (u₂ == x) = false by simpa using hx2] at h2
      have := lookup_rankMap_ge u₂ l (k + 1) n h2
      omega
    · simp [rankMap, List.lookup, hx2] at h2
      simp only [rankMap, List.lookup, show (u₁ == x) = false by simpa using hx1] at h1
      have := lookup_rankMap_ge u₁ l (k + 1) n h1
      omega
    · simp only [rankMap, List.lookup, show (u₁ == x) = false by simpa using hx1] at h1
      simp only [rankMap, List.lookup, show (u₂ == x) = false by simpa using hx2] at h2
      exact ih (k + 1) n h1 h2

/-- A successful association lookup survives appending entries. -/
theorem lookup_append_of_some {β : Type} (m m' : List (String × β)) (u : String)
    (v : β) (h : m.lookup u = some v) : (m ++ m').lookup u = some v := by
  induction m with
  | nil => simp [List.lookup] at h
  | cons q rest ih =>
    obtain ⟨a, b⟩ := q
    cases hq : u == a with
    | true => simpa [List.lookup, hq] using h
    | false =>
      simp only [List.lookup, hq] at h
      simp only [List.cons_append, List.lookup, hq]
      exact ih h

/-- Appending a fresh key makes it retrievable. -/
theorem lookup_append_fresh {β : Type} (m : List (String × β)) (u : String) (v : β)
    (h : m.lookup u = none) : (m ++ [(u, v)]).lookup u = some v := by
  induction m with
  | nil => simp [List.lookup]
  | cons q rest ih =>
    obtain ⟨a, b⟩ := q
    cases hq : u == a with
    | true => simp [List.lookup, hq] at h
    | false =>
      simp only [List.lookup, hq] at h
      simp only [List.cons_append, List.lookup, hq]
      exact ih h

/-! ## Helper lemmas: surrogate-key invariant -/

/-- `jwcInv` is preserved by the `joinWithContacts` loop. -/
theorem jwcFold_inv (contacts : List ContactRecord) :
    ∀ (rows : List JoinedRecord) (urls : List String) (st : JwcState),
      jwcInv urls st →
      jwcInv (urls ++ matchedUrls contacts rows)
        (rows.foldl (jwcStep contacts) st) := by
  intro rows
  induction rows with
  | nil => intro urls st h; simpa [matchedUrls] using h
  | cons r rest ih =>
    intro urls st h
    obtain ⟨hmap, hnext, hrows⟩ := h
    rw [List.foldl_cons]
    cases hc : contactFor contacts (rowEmail r) with
    | none =>
      have hstep : jwcStep contacts st r =
          { st with failures := st.failures ++
              [{ r with failure_reason := some "Send email not found in contacts" }] } := by
        unfold jwcStep; rw [hc]
      have hm : matchedUrls contacts (r :: rest) = matchedUrls contacts rest := by
        simp [matchedUrls, List.filterMap_cons, hc]
      rw [hm, hstep]
      exact ih urls _ ⟨hmap, hnext, hrows⟩
    | some c =>
      by_cases hu : urlTruthy c.companyURL = true
      · have hm : matchedUrls contacts (r :: rest) =
            mergedUrlKey c :: matchedUrls contacts rest := by
          simp [matchedUrls, List.filterMap_cons, hc, hu]
        rw [hm, show urls ++ mergedUrlKey c :: matchedUrls contacts rest =
          (urls ++ [mergedUrlKey c]) ++ matchedUrls contacts rest by simp]
        cases hl : st.urlMap.lookup (mergedUrlKey c) with
        | some n =>
          have hstep : jwcStep contacts st r =
              { st with successful := st.successful ++ [⟨r, c, some n⟩] } := by
            unfold jwcStep; rw [hc]; simp [hu, hl]
          have hmem : mergedUrlKey c ∈ urls := by
            have hlk : (rankMap (firstDedup urls) 1).lookup (mergedUrlKey c) = some n := by
              rw [← hmap]; exact hl
            by_contra hnot
            have : (rankMap (firstDedup urls) 1).lookup (mergedUrlKey c) = none :=
              (lookup_rankMap_none _ _ _).mpr (fun hmem' =>
                hnot ((mem_firstDedup _ _).mp hmem'))
            rw [this] at hlk
            exact Option.noConfusion hlk
          have hfd : firstDedup (urls ++ [mergedUrlKey c]) = firstDedup urls := by
            rw [firstDedup_append_singleton]; simp [hmem]
          rw [hstep]
          refine ⟨by simpa [hfd] using hmap, by simpa [hfd] using hnext, ?_⟩ |>
            fun inv => ih (urls ++ [mergedUrlKey c]) _ inv
          intro f hf
          rcases List.mem_append.mp hf with h1 | h2
          · exact hrows f h1
          · simp at h2
            subst h2
            exact ⟨fun _ => ⟨n, rfl, hl⟩, fun hfalse => by rw [hfalse] at hu; simp at hu⟩
        | none =>
          have hstep : jwcStep contacts st r =
              { st with
                successful := st.successful ++ [⟨r, c, some st.nextId⟩]
                urlMap := st.urlMap ++ [(mergedUrlKey c, st.nextId)]
                nextId := st.nextId + 1 } := by
            unfold jwcStep; rw [hc]; simp [hu, hl]
          have hnotmem : mergedUrlKey c ∉ urls := by
            have hlk : (rankMap (firstDedup urls) 1).lookup (mergedUrlKey c) = none := by
              rw [← hmap]; exact hl
            intro hmem'
            have := (lookup_rankMap_none _ _ _).mp hlk
            exact this ((mem_firstDedup _ _).mpr hmem')
          have hfd : firstDedup (urls ++ [mergedUrlKey c]) =
              firstDedup urls ++ [mergedUrlKey c] := by
            rw [firstDedup_append_singleton]; simp [hnotmem]
          have hmap' : st.urlMap ++ [(mergedUrlKey c, st.nextId)] =
              rankMap (firstDedup (urls ++ [mergedUrlKey c])) 1 := by
            rw [hfd, rankMap_append_singleton, ← hmap, hnext]
            have : 1 + (firstDedup urls).length = (firstDedup urls).length + 1 := by omega
            rw [this]
          rw [hstep]
          refine ih (urls ++ [mergedUrlKey c]) _ ⟨hmap', ?_, ?_⟩
          · simp only [hfd, List.length_append, List.length_cons, List.length_nil]
            omega
          · intro f hf
            rcases List.mem_append.mp hf with h1 | h2
            · obtain ⟨hT, hF⟩ := hrows f h1
              refine ⟨fun ht => ?_, hF⟩
              obtain ⟨n, hid, hlook⟩ := hT ht
              exact ⟨n, hid, lookup_append_of_some _ _ _ _ hlook⟩
            · simp at h2
              subst h2
              refine ⟨fun _ => ⟨st.nextId, rfl, lookup_append_fresh _ _ _ hl⟩,
                fun hfalse => by rw [hfalse] at hu; simp at hu⟩
      · have hu' : urlTruthy c.companyURL = false := by
          cases hUT : urlTruthy c.companyURL
          · rfl
          · exact absurd hUT hu
        have hstep : jwcStep contacts st r =
            { st with successful := st.successful ++ [⟨r, c, none⟩] } := by
          unfold jwcStep; rw [hc]; simp [hu']
        have hm : matchedUrls contacts (r :: rest) = matchedUrls contacts rest := by
          simp [matchedUrls, List.filterMap_cons, hc, hu']
        rw [hm, hstep]
        refine ih urls _ ⟨hmap, hnext, ?_⟩
        intro f hf
        rcases List.mem_append.mp hf with h1 | h2
        · exact hrows f h1
        · simp at h2
          subst h2
          exact ⟨fun ht => by rw [ht] at hu'; simp at hu', fun _ => rfl⟩

/-! ## Claim C2 -/

/-- C2 counterexample: two sends of the same recipient at the same instant
and a single open record.  The code gives BOTH sends a unique Phase-1
match merging that same open record (both output rows carry its
`Views = 5` and no failure marker), so one OpenRecord satisfied two
successful SendRecord matches in one batch.  Under the claim, after the
first match the open record would be out of candidacy and the second send
could not have matched it. -/
theorem c2_open_reuse_counterexample :
    (joinSendAndOpen [sAnn1, sAnn2] [oAnn]).sendOpenSuccess.map
        (fun r => (r.Views, r.failure_reason)) = [(some 5, none), (some 5, none)] ∧
    (phase1Matching [sAnn1, sAnn2] [oAnn]).successful.length = 2 ∧
    [oAnn].length = 1 :=
  ⟨rfl, rfl, rfl⟩

/-- C2 corrected: a uniquely matched OpenRecord is removed from candidacy
only for Phase 2 (the Phase-2 bucket excludes every index in
`usedIndices`); within a single phase each record's outcome is a function
of the record and the phase's full candidate pool alone, independent of
matches made for previously processed sends, so an already-consumed open
remains in candidacy for later sends of the same phase. -/
theorem c2_consumption_only_gates_phase2 :
    (∀ (bk : String → List (Nat × OpenRecord)) (sends : List SendRecord),
      phase1Go bk sends =
        ⟨sends.filterMap (fun s => entryOk (phase1Entry bk s)),
         sends.filterMap (fun s => entryFail (phase1Entry bk s)),
         sends.filterMap (fun s => entryIdx (phase1Entry bk s))⟩) ∧
    (∀ (opens : List OpenRecord) (used : List Nat) (fl : List JoinedRecord),
      phase2Go opens used fl =
        ⟨fl.filterMap (fun f => entryOk (phase2Entry opens used f)),
         fl.filterMap (fun f => entryFail (phase2Entry opens used f))⟩) ∧
    (∀ (opens : List OpenRecord) (used : List Nat) (email : String)
        (p : Nat × OpenRecord), p ∈ p2bucket opens used email → p.1 ∉ used) :=
  ⟨phase1Go_eq, phase2Go_eq, mem_p2bucket_not_used⟩

/-- C2 witness: a Phase-2 bucket member at a concrete input, with its
index concretely outside the used set. -/
theorem c2_consumption_witness :
    (1, oPlus2) ∈ p2bucket [oAnn, oPlus2] [0] "wyn" ∧ (1 : Nat) ∉ [0] :=
  ⟨by decide,
   c2_consumption_only_gates_phase2.2.2 [oAnn, oPlus2] [0] "wyn" (1, oPlus2) (by decide)⟩

/-! ## Claim C3 -/

/-- C3 (confirmed): Phase 1 scans increments 0–11 inclusive
(`p1Scan = scanLoop … 0 12`) and stops at the first increment with at
least one exact-second match; if all twelve increments are matchless the
outcome is `noMatch`.  Phase 2 scans increments 12–60 inclusive
(`p2Scan = scanLoop … 12 49`) in the same first-hit discipline.  Inside
`joinSendAndOpen`, Phase 2 runs exactly on the Phase-1 failure list, and
a send with a unique Phase-1 match (`phase1Entry … = .ok …`) contributes
nothing to that list, hence is never evaluated against the 12–60s
window. -/
theorem c3_phase_windows_and_precedence :
    (∀ (b : List (Nat × OpenRecord)) (t : Int) (inc : Nat), inc ≤ 11 →
      (∀ j, j < inc → matchesAt b t j = []) → matchesAt b t inc ≠ [] →
      p1Scan b t = scanHit (matchesAt b t inc) inc) ∧
    (∀ (b : List (Nat × OpenRecord)) (t : Int),
      (∀ j, j ≤ 11 → matchesAt b t j = []) → p1Scan b t = .noMatch) ∧
    (∀ (b : List (Nat × OpenRecord)) (t : Int) (inc : Nat), 12 ≤ inc → inc ≤ 60 →
      (∀ j, 12 ≤ j → j < inc → matchesAt b t j = []) → matchesAt b t inc ≠ [] →
      p2Scan b t = scanHit (matchesAt b t inc) inc) ∧
    (∀ (b : List (Nat × OpenRecord)) (t : Int),
      (∀ j, 12 ≤ j → j ≤ 60 → matchesAt b t j = []) → p2Scan b t = .noMatch) ∧
    (∀ (sends : List SendRecord) (opens : List OpenRecord),
      joinSendAndOpen sends opens =
        { sendOpenSuccess :=
            ((phase1Matching sends opens).successful ++
              (phase2Matching (phase1Matching sends opens).failed opens
                (phase1Matching sends opens).usedIndices).successful) ++
            (phase2Matching (phase1Matching sends opens).failed opens
              (phase1Matching sends opens).usedIndices).failed.map leftJoinNull
          sendOpenFailures := [] }) ∧
    (∀ (sends : List SendRecord) (opens : List OpenRecord),
      (phase1Matching sends opens).failed =
        sends.filterMap (fun s => entryFail (phase1Entry (p1bucket opens) s))) ∧
    (∀ (bk : String → List (Nat × OpenRecord)) (s : SendRecord)
        (j : JoinedRecord) (i : Nat),
      phase1Entry bk s = .ok j i → entryFail (phase1Entry bk s) = none) := by
  refine ⟨?_, ?_, ?_, ?_, ?_, ?_, ?_⟩
  · intro b t inc h1 h2 hne
    exact scanLoop_first_hit b t 12 0 inc (Nat.zero_le _) (by omega)
      (fun j _ hj => h2 j hj) hne
  · intro b t h
    exact scanLoop_all_empty b t 12 0 (fun j _ hj => h j (by omega))
  · intro b t inc h1 h2 h3 hne
    exact scanLoop_first_hit b t 49 12 inc h1 (by omega) h3 hne
  · intro b t h
    exact scanLoop_all_empty b t 49 12 (fun j hj1 hj2 => h j hj1 (by omega))
  · intro sends opens; rfl
  · intro sends opens
    show (phase1Go (p1bucket opens) sends).failed = _
    rw [phase1Go_eq]
  · intro bk s j i h
    rw [h]; rfl

/-- C3 witness: a concrete send instant with a unique match at the +2s
increment; the scan stops there with a `matched` outcome. -/
theorem c3_phase_windows_witness :
    (∀ j, j < 2 → matchesAt (p1bucket [oPlus2] "wyn") 0 j = []) ∧
    p1Scan (p1bucket [oPlus2] "wyn") 0 = .matched (0, oPlus2) := by
  refine ⟨by decide, ?_⟩
  have h := c3_phase_windows_and_precedence.1 (p1bucket [oPlus2] "wyn") 0 2
    (by omega) (by decide) (by decide)
  rw [h]; rfl

/-! ## Claim C4 -/

/-- C4 (confirmed): at the first increment with matches, two or more
candidates classify the send as ambiguous — the scan stops there and
never picks one; a scan ending ambiguous makes `phase1Entry` fail with
the `multiple_matches_at_plus_<n>_seconds` reason and the match count;
and the final success list null-fills every record still failed after
Phase 2, `leftJoinNull` deleting `failure_reason`/`match_count` and
nulling `Views`/`Clicks`/`last_opened`. -/
theorem c4_ambiguity_hard_stop :
    (∀ (b : List (Nat × OpenRecord)) (t : Int) (inc : Nat), inc ≤ 11 →
      (∀ j, j < inc → matchesAt b t j = []) → 2 ≤ (matchesAt b t inc).length →
      p1Scan b t = .ambiguous inc (matchesAt b t inc).length) ∧
    (∀ (bk : String → List (Nat × OpenRecord)) (s : SendRecord) (t : Int) (inc n : Nat),
      s.sent_date_parsed = some t →
      p1Scan (bk (normKey s.recipient_name)) t = .ambiguous inc n →
      phase1Entry bk s = .fail
        { send := s
          failure_reason := some s!"multiple_matches_at_plus_{inc}_seconds"
          match_count := some n }) ∧
    (∀ f : JoinedRecord, (leftJoinNull f).Views = none ∧ (leftJoinNull f).Clicks = none ∧
      (leftJoinNull f).last_opened = none ∧ (leftJoinNull f).failure_reason = none ∧
      (leftJoinNull f).match_count = none) ∧
    (∀ (sends : List SendRecord) (opens : List OpenRecord),
      (joinSendAndOpen sends opens).sendOpenSuccess =
        ((phase1Matching sends opens).successful ++
          (phase2Matching (phase1Matching sends opens).failed opens
            (phase1Matching sends opens).usedIndices).successful) ++
        (phase2Matching (phase1Matching sends opens).failed opens
          (phase1Matching sends opens).usedIndices).failed.map leftJoinNull) := by
  refine ⟨?_, ?_, ?_, ?_⟩
  · intro b t inc h1 h2 hlen
    have hne : matchesAt b t inc ≠ [] := by
      intro hnil; rw [hnil] at hlen; simp at hlen
    show scanLoop b t 0 12 = _
    rw [scanLoop_first_hit b t 12 0 inc (Nat.zero_le _) (by omega)
      (fun j _ hj => h2 j hj) hne]
    exact scanHit_ambiguous _ inc hlen
  · intro bk s t inc n hp hscan
    simp [phase1Entry, hp, hscan]
  · intro f
    exact ⟨rfl, rfl, rfl, rfl, rfl⟩
  · intro sends opens; rfl

/-- C4 witness: a send with exactly two open candidates at +0s classifies
ambiguous, and its final output row is null-filled with no failure
markers. -/
theorem c4_ambiguity_witness :
    2 ≤ (matchesAt (p1bucket [oBob1, oBob2] "bob") 2000 0).length ∧
    p1Scan (p1bucket [oBob1, oBob2] "bob") 2000 = .ambiguous 0 2 ∧
    (joinSendAndOpen [sBob] [oBob1, oBob2]).sendOpenSuccess.map
        (fun r => (r.Views, r.Clicks, r.last_opened, r.failure_reason, r.match_count)) =
      [(none, none, none, none, none)] := by
  refine ⟨by decide, ?_, by decide⟩
  have h := c4_ambiguity_hard_stop.1 (p1bucket [oBob1, oBob2] "bob") 2000 0
    (by omega) (by simp) (by decide)
  exact h.trans (by decide)

/-! ## Claim C5 -/

/-- C5 (confirmed): a send record whose date failed to parse is classified
`invalid_send_date` by the Phase-1 loop body (and so lands in the Phase-1
failure list), and the Phase-2 loop body returns it as a failure with the
same reason without consulting any candidate pool — for every pool and
used set, i.e. it is never matched in Phase 2. -/
theorem c5_invalid_send_date :
    (∀ (bk : String → List (Nat × OpenRecord)) (s : SendRecord),
      s.sent_date_parsed = none →
      phase1Entry bk s =
        .fail { send := s, failure_reason := some "invalid_send_date" }) ∧
    (∀ (bk : String → List (Nat × OpenRecord)) (sends : List SendRecord) (s : SendRecord),
      s ∈ sends → s.sent_date_parsed = none →
      ({ send := s, failure_reason := some "invalid_send_date" } : JoinedRecord) ∈
        (phase1Go bk sends).failed) ∧
    (∀ (opens : List OpenRecord) (used : List Nat) (f : JoinedRecord),
      f.send.sent_date_parsed = none →
      phase2Entry opens used f =
        .fail { f with failure_reason := some "invalid_send_date" }) := by
  have h1 : ∀ (bk : String → List (Nat × OpenRecord)) (s : SendRecord),
      s.sent_date_parsed = none →
      phase1Entry bk s =
        .fail { send := s, failure_reason := some "invalid_send_date" } := by
    intro bk s h
    simp [phase1Entry, h]
  refine ⟨h1, ?_, ?_⟩
  · intro bk sends s hs hnone
    rw [phase1Go_eq]
    exact List.mem_filterMap.mpr ⟨s, hs, by rw [h1 bk s hnone]; rfl⟩
  · intro opens used f h
    simp [phase2Entry, h]

/-- C5 witness: the unparseable-date fixture send is classified
`invalid_send_date` by the Phase-1 body. -/
theorem c5_invalid_send_date_witness :
    sBad.sent_date_parsed = none ∧
    phase1Entry (p1bucket [oAnn]) sBad =
      .fail { send := sBad, failure_reason := some "invalid_send_date" } :=
  ⟨rfl, c5_invalid_send_date.1 (p1bucket [oAnn]) sBad rfl⟩

/-! ## Claim C6 -/

/-- C6 (confirmed): the Phase-2 candidate pool (`unusedOpens` and every
email bucket drawn from it) contains only open records whose index is not
in `usedIndices`, and every index in the Phase-1 `usedIndices` was
recorded by a unique Phase-1 match — so the pools are disjoint by
consumption. -/
theorem c6_phase2_pool_disjoint :
    (∀ (opens : List OpenRecord) (used : List Nat) (p : Nat × OpenRecord),
      p ∈ unusedOpens opens used → p.1 ∉ used) ∧
    (∀ (opens : List OpenRecord) (used : List Nat) (email : String)
        (p : Nat × OpenRecord), p ∈ p2bucket opens used email → p.1 ∉ used) ∧
    (∀ (bk : String → List (Nat × OpenRecord)) (sends : List SendRecord) (i : Nat),
      i ∈ (phase1Go bk sends).usedIndices →
      ∃ s, s ∈ sends ∧ ∃ j, phase1Entry bk s = .ok j i) := by
  refine ⟨mem_unusedOpens_not_used, mem_p2bucket_not_used, ?_⟩
  intro bk sends i hi
  rw [phase1Go_eq] at hi
  obtain ⟨s, hs, hsome⟩ := List.mem_filterMap.mp hi
  cases h : phase1Entry bk s with
  | ok j i' =>
    rw [h] at hsome
    simp [entryIdx] at hsome
    exact ⟨s, hs, j, by rw [h, hsome]⟩
  | fail j =>
    rw [h] at hsome
    simp [entryIdx] at hsome

/-- C6 witness: a concrete Phase-2 bucket membership whose index is
outside the used set. -/
theorem c6_phase2_pool_witness :
    (0, oBob1) ∈ p2bucket [oBob1, oBob2] [1] "bob" ∧ (0 : Nat) ∉ [1] :=
  ⟨by decide,
   c6_phase2_pool_disjoint.2.1 [oBob1, oBob2] [1] "bob" (0, oBob1) (by decide)⟩

/-! ## Claim C7 -/

/-- C7 (confirmed): within one `joinWithContacts` invocation the final
surrogate map ranks the distinct normalized (lowercased, trimmed) company
URLs in first-occurrence order starting at 1; every merged row with a
truthy `Company URL` carries `some` positive id equal to its URL's rank
in that map, a row with an absent/empty URL carries no id, and for any
two id-carrying merged rows the ids agree exactly when the normalized
URLs agree. -/
theorem c7_company_url_id (rows : List JoinedRecord) (contacts : List ContactRecord) :
    (jwcState rows contacts).urlMap =
        rankMap (firstDedup (matchedUrls contacts rows)) 1 ∧
    (∀ f ∈ (joinWithContacts rows contacts).1,
      (urlTruthy f.contact.companyURL = true →
        ∃ n, f.companyUrlId = some n ∧ 1 ≤ n ∧
          (jwcState rows contacts).urlMap.lookup (mergedUrlKey f.contact) = some n) ∧
      (urlTruthy f.contact.companyURL = false → f.companyUrlId = none)) ∧
    (∀ f ∈ (joinWithContacts rows contacts).1,
      ∀ g ∈ (joinWithContacts rows contacts).1,
      ∀ m n, f.companyUrlId = some m → g.companyUrlId = some n →
        (mergedUrlKey f.contact = mergedUrlKey g.contact ↔ m = n)) := by
  have hbase : jwcInv [] (⟨[], [], [], 1⟩ : JwcState) := by
    refine ⟨rfl, rfl, ?_⟩
    intro f hf
    simp at hf
  have hinv := jwcFold_inv contacts rows [] ⟨[], [], [], 1⟩ hbase
  rw [List.nil_append] at hinv
  obtain ⟨hmap, _, hsucc⟩ := hinv
  have hmap' : (jwcState rows contacts).urlMap =
      rankMap (firstDedup (matchedUrls contacts rows)) 1 := hmap
  have hrow : ∀ f ∈ (joinWithContacts rows contacts).1,
      (urlTruthy f.contact.companyURL = true →
        ∃ n, f.companyUrlId = some n ∧ 1 ≤ n ∧
          (jwcState rows contacts).urlMap.lookup (mergedUrlKey f.contact) = some n) ∧
      (urlTruthy f.contact.companyURL = false → f.companyUrlId = none) := by
    intro f hf
    obtain ⟨hT, hF⟩ := hsucc f hf
    refine ⟨fun ht => ?_, hF⟩
    obtain ⟨n, hid, hlook⟩ := hT ht
    have hge : 1 ≤ n := by
      rw [hmap] at hlook
      exact lookup_rankMap_ge _ _ _ _ hlook
    exact ⟨n, hid, hge, hlook⟩
  refine ⟨hmap', hrow, ?_⟩
  intro f hf g hg m n hm hn
  have hfT : urlTruthy f.contact.companyURL = true := by
    cases hUT : urlTruthy f.contact.companyURL
    · rw [(hrow f hf).2 hUT] at hm; exact Option.noConfusion hm
    · rfl
  have hgT : urlTruthy g.contact.companyURL = true := by
    cases hUT : urlTruthy g.contact.companyURL
    · rw [(hrow g hg).2 hUT] at hn; exact Option.noConfusion hn
    · rfl
  obtain ⟨m', hidm, _, hlookm⟩ := (hrow f hf).1 hfT
  obtain ⟨n', hidn, _, hlookn⟩ := (hrow g hg).1 hgT
  rw [hm] at hidm
  rw [hn] at hidn
  have hm' : m' = m := by injection hidm.symm
  have hn' : n' = n := by injection hidn.symm
  subst hm'
  subst hn'
  constructor
  · intro hkeys
    rw [hkeys] at hlookm
    rw [hlookm] at hlookn
    injection hlookn
  · intro hmn
    subst hmn
    rw [hmap'] at hlookm hlookn
    exact lookup_rankMap_inj _ _ _ _ _ hlookm hlookn

/-- C7 witness: in the fixture run the first matched row (URL key
`ex.com`) carries id 1 stored under its normalized URL in the final
map. -/
theorem c7_company_url_id_witness :
    (⟨{ send := sAnn1 }, ctAnn, some 1⟩ : FinalRecord) ∈
      (joinWithContacts c7Rows c7Contacts).1 ∧
    (∃ n, (⟨{ send := sAnn1 }, ctAnn, some 1⟩ : FinalRecord).companyUrlId = some n ∧
      1 ≤ n ∧
      (jwcState c7Rows c7Contacts).urlMap.lookup (mergedUrlKey ctAnn) = some n) :=
  ⟨by decide,
   ((c7_company_url_id c7Rows c7Contacts).2.1
      ⟨{ send := sAnn1 }, ctAnn, some 1⟩ (by decide)).1 (by decide)⟩

/-! ## Claim C10 -/

/-- C10 (confirmed): a contact whose `Email` normalizes to the empty
string is never entered into the contact lookup (the lookup of `""` fails
for every contact list), and consequently every input row whose
`Recipient Email` normalizes to the empty string is placed in the contact
failures with reason `Send email not found in contacts` — even when the
contacts list contains an empty-email record. -/
theorem c10_empty_email_never_matches (contacts : List ContactRecord)
    (rows : List JoinedRecord) :
    (buildContactLookup contacts).lookup "" = none ∧
    (∀ r ∈ rows, rowEmail r = "" →
      ({ r with failure_reason := some "Send email not found in contacts" } :
          JoinedRecord) ∈ (joinWithContacts rows contacts).2) := by
  have hempty : (buildContactLookup contacts).lookup "" = none :=
    lookup_empty_of_keys_ne _ (buildContactLookup_keys_ne_empty contacts)
  refine ⟨hempty, ?_⟩
  intro r hr he
  have hnone : contactFor contacts (rowEmail r) = none := by
    unfold contactFor
    rw [he]
    exact hempty
  show _ ∈ (List.foldl (jwcStep contacts) ⟨[], [], [], 1⟩ rows).failures
  rw [jwcFold_failures contacts rows ⟨[], [], [], 1⟩]
  simp only [List.nil_append]
  exact List.mem_filterMap.mpr ⟨r, hr, by simp [hnone]⟩

/-- C10 witness: a row with a whitespace `Recipient Email` fails the
contact join although the contact directory holds a record whose email
normalizes to the empty string. -/
theorem c10_empty_email_witness :
    rowEmail rEmptyMail = "" ∧
    ({ rEmptyMail with failure_reason := some "Send email not found in contacts" } :
        JoinedRecord) ∈ (joinWithContacts [rEmptyMail] [ctEmptyMail]).2 :=
  ⟨rfl,
   (c10_empty_email_never_matches [ctEmptyMail] [rEmptyMail]).2 rEmptyMail
     (by decide) rfl⟩

/-! ## Claim C1 -/

/-- C1 counterexample: a pipeline run whose single send row has an
unparseable date (with non-empty open and contact files) succeeds and
produces ZERO rows across `successful` and `failed`, although the
normalized send input has one row, and the send-open success statistic is
0, not `parseable (0) + invalid carried as failures (1)`.  The
invalid-date row is removed by the pre-join filter
(`sendNorm.filter(r => r.sent_date_parsed)`) and appears in neither
output — it is silently dropped, contradicting the claim. -/
theorem c1_dropped_invalid_send_counterexample :
    processEmailCore tParse id [sBadRaw] [oRawOk] [ctAnn] = .ok c1RunOut ∧
    c1RunOut.successful.length + c1RunOut.failed.length = 0 ∧
    c1RunOut.stats.send_open_success = 0 ∧
    (normalizeSend [sBadRaw]).length = 1 :=
  ⟨rfl, rfl, rfl, rfl⟩

/-- C1 corrected: send rows with unparseable dates are dropped before the
join rather than carried as failures.  For every successful run,
`successful` and `failed` together hold exactly one row per send with a
parseable date (every such row appears in exactly one of the two lists,
by the left join that also fixes `send_open_success` to the same
parseable count), while `total_send_records` counts all normalized send
rows including the dropped ones. -/
theorem c1_left_join_counts_amended (parse : String → Option Int)
    (reformat : String → String) (sendRows : List SendRecord)
    (openRows : List OpenRaw) (contactRows : List ContactRecord)
    (out : PipelineOutput)
    (h : processEmailCore parse reformat sendRows openRows contactRows = .ok out) :
    out.successful.length + out.failed.length =
      ((assignParsedSend parse (normalizeSend sendRows)).filter
        (fun r => r.sent_date_parsed.isSome)).length ∧
    out.stats.send_open_success =
      ((assignParsedSend parse (normalizeSend sendRows)).filter
        (fun r => r.sent_date_parsed.isSome)).length ∧
    out.stats.total_send_records = (normalizeSend sendRows).length := by
  simp only [processEmailCore] at h
  split at h
  case isTrue => exact absurd h (by simp)
  case isFalse =>
  split at h
  case isTrue => exact absurd h (by simp)
  case isFalse =>
  split at h
  case isTrue => exact absurd h (by simp)
  case isFalse =>
    rw [Except.ok.injEq] at h
    subst h
    have hjoin := joinSendAndOpen_length
      ((assignParsedSend parse (normalizeSend sendRows)).filter
        (fun r => r.sent_date_parsed.isSome))
      ((assignParsedOpen parse (normalizeOpen reformat openRows)).filter
        (fun r => r.sent_date_parsed.isSome))
    have hjwc := jwcFold_length (normalizeContacts contactRows)
      ((joinSendAndOpen
        ((assignParsedSend parse (normalizeSend sendRows)).filter
          (fun r => r.sent_date_parsed.isSome))
        ((assignParsedOpen parse (normalizeOpen reformat openRows)).filter
          (fun r => r.sent_date_parsed.isSome))).sendOpenSuccess)
      ⟨[], [], [], 1⟩
    have hfail : (joinSendAndOpen
        ((assignParsedSend parse (normalizeSend sendRows)).filter
          (fun r => r.sent_date_parsed.isSome))
        ((assignParsedOpen parse (normalizeOpen reformat openRows)).filter
          (fun r => r.sent_date_parsed.isSome))).sendOpenFailures = [] := rfl
    refine ⟨?_, ?_, ?_⟩
    · simp only [joinWithContacts, jwcState, hfail] at *
      simp only [List.length_nil, List.nil_append, List.length_append] at *
      omega
    · exact hjoin
    · simp [assignParsedSend]

/-- C1 witness: the one-parseable-send fixture run conserves the single
row through the pipeline. -/
theorem c1_left_join_counts_witness :
    processEmailCore tParse id [sOkRaw] [oRawOk] [ctAnn] = .ok c1WitnessOut ∧
    c1WitnessOut.successful.length + c1WitnessOut.failed.length = 1 ∧
    c1WitnessOut.stats.total_send_records = 1 := by
  refine ⟨rfl, ?_, rfl⟩
  have h := c1_left_join_counts_amended tParse id [sOkRaw] [oRawOk] [ctAnn]
    c1WitnessOut rfl
  rw [h.1]
  decide

/-! ## Claim C8 -/

/-- C8 counterexample: the hand-built drifted stats object
(`total 10, success 1, failed 2`, difference `7`).  The checker fails as
expected, but none of its emitted error strings contains the digit string
`"7"`: the stats-inconsistency message reports the computed sum (`= 3`),
not the computed difference, refuting the claim's description of the
message content. -/
theorem c8_checker_message_counterexample :
    (validateSdrSendData dDrift).passed = false ∧
    statsTot dDrift - (statsSuc dDrift + statsFl dDrift) = 7 ∧
    (validateSdrSendData dDrift).errors ≠ [] ∧
    (validateSdrSendData dDrift).errors.all (fun e => !(strIncludes e "7")) = true :=
  ⟨rfl, rfl, by decide, by decide⟩

/-- C8 corrected: when the reported `total_send_records` is positive and
differs from `send_open_success + send_open_failed` (the keys the checker
reads), `validateSdrSendData` returns `passed = false` and its first
error is the stats-inconsistency string naming both numbers and their
computed SUM (`… = success + failed`), not their difference; when the
equation holds, no stats-inconsistency error is emitted (the error list
is exactly the other checks' output). -/
theorem c8_checker_drift_amended (d : CheckData) (succ : List Unit)
    (hs : d.successful = some succ) :
    (0 < statsTot d → statsTot d ≠ statsSuc d + statsFl d →
      (validateSdrSendData d).passed = false ∧
      (validateSdrSendData d).errors =
        statsIncMsg (statsTot d) (statsSuc d) (statsFl d)
            (statsSuc d + statsFl d) ::
          (check5Errors (statsTot d) (processedTot d succ) ++
           check6Errors (statsTot d) (statsSuc d) (statsFl d) d.sdrStats)) ∧
    (statsTot d = statsSuc d + statsFl d →
      (validateSdrSendData d).errors =
        check5Errors (statsTot d) (processedTot d succ) ++
        check6Errors (statsTot d) (statsSuc d) (statsFl d) d.sdrStats) := by
  constructor
  · intro hpos hne
    have hc4 : check4Errors (statsTot d) (statsSuc d) (statsFl d) =
        [statsIncMsg (statsTot d) (statsSuc d) (statsFl d)
          (statsSuc d + statsFl d)] := by
      simp [check4Errors, hpos, hne]
    constructor
    · simp [validateSdrSendData, hs, hc4]
    · simp [validateSdrSendData, hs, hc4]
  · intro heq
    have hc4 : check4Errors (statsTot d) (statsSuc d) (statsFl d) = [] := by
      simp [check4Errors, heq]
    simp [validateSdrSendData, hs, hc4]

/-- C8 witness: the drifted fixture triggers the amended behavior — the
checker fails with the stats-inconsistency message first. -/
theorem c8_checker_drift_witness :
    (validateSdrSendData dDrift).passed = false ∧
    (validateSdrSendData dDrift).errors =
      statsIncMsg (statsTot dDrift) (statsSuc dDrift) (statsFl dDrift)
          (statsSuc dDrift + statsFl dDrift) ::
        (check5Errors (statsTot dDrift) (processedTot dDrift []) ++
         check6Errors (statsTot dDrift) (statsSuc dDrift) (statsFl dDrift)
           dDrift.sdrStats) :=
  (c8_checker_drift_amended dDrift [] rfl).1 (by decide) (by decide)

/-! ## Claim C9 -/

/-- C9 (confirmed): the batch aggregator throws on an empty batch list
(`At least one SDR configuration is required`); when the per-batch loop
completes with zero concatenated send-open successes — and the earlier
fatal checks did not fire — it throws
`No SDR send-open joins were successful`; and every produced output
object has a positive send-open success count, so no output is produced
in either fatal case. -/
theorem c9_aggregator_fatal_errors :
    (∀ (parse : String → Option Int) (reformat : String → String)
        (contactRows : List ContactRecord),
      processMultiSdr parse reformat [] contactRows =
        .error "At least one SDR configuration is required") ∧
    (∀ (parse : String → Option Int) (reformat : String → String)
        (configs : List SdrConfig) (contactRows : List ContactRecord) (acc : BatchAcc),
      configs ≠ [] → normalizeContacts contactRows ≠ [] →
      batchLoop parse reformat configs = .ok acc → acc.allSuccess = [] →
      processMultiSdr parse reformat configs contactRows =
        .error "No SDR send-open joins were successful") ∧
    (∀ (parse : String → Option Int) (reformat : String → String)
        (configs : List SdrConfig) (contactRows : List ContactRecord)
        (out : MultiOutput),
      processMultiSdr parse reformat configs contactRows = .ok out →
      0 < out.stats.send_open_success) := by
  refine ⟨?_, ?_, ?_⟩
  · intro parse reformat contactRows
    rfl
  · intro parse reformat configs contactRows acc hne hcts hloop hempty
    have h1 : configs.isEmpty = false := by
      cases configs with
      | nil => exact absurd rfl hne
      | cons c cs => rfl
    have h2 : (normalizeContacts contactRows).isEmpty = false := by
      cases hcn : normalizeContacts contactRows with
      | nil => exact absurd hcn hcts
      | cons c cs => rfl
    have h3 : acc.allSuccess.isEmpty = true := by
      rw [hempty]; rfl
    simp only [processMultiSdr, h1, h2, hloop, h3, Bool.false_eq_true, if_false, if_true]
  · intro parse reformat configs contactRows out h
    simp only [processMultiSdr] at h
    split at h
    · exact absurd h (by simp)
    · split at h
      · exact absurd h (by simp)
      · split at h
        · exact absurd h (by simp)
        · next acc heq =>
          split at h
          · exact absurd h (by simp)
          · next hne =>
            rw [Except.ok.injEq] at h
            subst h
            have : acc.allSuccess ≠ [] := by
              intro hnil
              rw [hnil] at hne
              exact hne rfl
            simpa using List.length_pos.mpr this

/-- C9 witness: a concrete single-batch run whose only send row has an
unparseable date completes the loop with zero joined rows and the
aggregator throws the no-joins fatal error. -/
theorem c9_aggregator_witness :
    batchLoop tParse id [cfgNoJoin] = .ok cfgNoJoinAcc ∧
    cfgNoJoinAcc.allSuccess = [] ∧
    processMultiSdr tParse id [cfgNoJoin] [ctAnn] =
      .error "No SDR send-open joins were successful" := by
  refine ⟨rfl, rfl, ?_⟩
  exact c9_aggregator_fatal_errors.2.1 tParse id [cfgNoJoin] [ctAnn] cfgNoJoinAcc
    (by simp) (by decide) rfl rfl

end SalesDashboard
